import Mathlib

/-!
Verification of the DevClaw/GoClaw assistant daemon (Go sources) against its
natural-language specification.  The Go code is shallowly embedded: pure
helpers become Lean functions, stateful code becomes explicit state passing,
Go byte-strings become Lean `String`s manipulated through their character
lists, Go slices become `List`s, and external effects (regex engine, clock,
filesystem, LLM endpoint) become explicit parameters.  Go `int` values that
are non-negative at every call site relevant here are modelled as `Nat`;
where the Go code branches on `x <= 0` the model branches on `x = 0`.
-/

namespace DevClaw

/-- Is `sub` a contiguous run of `l`?  (Scanning every suffix for a prefix
match.) -/
def listIsInfixOf (sub : List Char) : List Char → Bool
  | [] => sub.isEmpty
  | c :: cs => sub.isPrefixOf (c :: cs) || listIsInfixOf sub cs

/-- Go `strings.Contains(s, sub)`, on the character lists of the strings. -/
def strContains (s sub : String) : Bool :=
  listIsInfixOf sub.toList s.toList

/-- Go `strings.ToLower`, on the character list of the string. -/
def strToLower (s : String) : String :=
  (s.toList.map Char.toLower).asString

/-- Go `strings.HasPrefix(s, pre)`, on the character lists of the strings. -/
def strHasPrefix (s pre : String) : Bool :=
  pre.toList.isPrefixOf s.toList

/-- Go `strings.HasSuffix(s, suf)`, on the character lists of the strings. -/
def strHasSuffix (s suf : String) : Bool :=
  suf.toList.isSuffixOf s.toList

/-- Go `s[:n]` on a byte-string, modelled as taking the first `n` characters. -/
def strTake (s : String) (n : Nat) : String :=
  (s.toList.take n).asString

/-- Go `s[n:]` on a byte-string, modelled as dropping the first `n` characters. -/
def strDrop (s : String) (n : Nat) : String :=
  (s.toList.drop n).asString

/-- Access levels of the role lattice `owner > admin > user > blocked`
(`AccessOwner`, `AccessAdmin`, `AccessUser`, `AccessBlocked` in the Go code). -/
inductive AccessLevel where
  | owner
  | admin
  | user
  | blocked
deriving DecidableEq

/-- `ToolCheckResult` from tool_guard.go: result of a tool access check. -/
structure ToolCheckResult where
  Allowed : Bool
  Reason : String := ""
  RequiresConfirmation : Bool := false
deriving DecidableEq

/-- One compiled dangerous-command pattern: `matchString` models the compiled
regex's `MatchString` and `source` its `String()` rendering.  The regex
engine itself is external to this embedding; a pattern is any predicate. -/
structure DangerousPattern where
  matchString : String → Bool
  source : String

/-- `ToolGuardConfig` from tool_guard.go (the YAML-visible fields). -/
structure ToolGuardConfig where
  Enabled : Bool
  AuditLogPath : String
  ToolPermissions : List (String × String)
  AllowDestructive : Bool
  AllowSudo : Bool
  AllowReboot : Bool
  DangerousCommands : List String
  ProtectedPaths : List String
  SSHAllowedHosts : List String
  BlockSudo : Bool
  AutoApprove : List String
  RequireConfirmation : List String

/-- `DefaultToolGuardConfig` from tool_guard.go: safe defaults for the guard. -/
def DefaultToolGuardConfig : ToolGuardConfig where
  Enabled := true
  AuditLogPath := "./data/audit.log"
  BlockSudo := true
  AllowDestructive := false
  AllowSudo := false
  AllowReboot := false
  DangerousCommands := []
  ProtectedPaths := []
  SSHAllowedHosts := []
  AutoApprove := []
  RequireConfirmation := []
  ToolPermissions :=
    [("bash", "owner"), ("ssh", "owner"), ("scp", "owner"), ("exec", "admin"),
     ("set_env", "owner"),
     ("write_file", "admin"), ("edit_file", "admin"), ("read_file", "user"),
     ("list_files", "user"), ("search_files", "user"), ("glob_files", "user"),
     ("install_skill", "admin"), ("remove_skill", "admin"), ("init_skill", "admin"),
     ("edit_skill", "admin"), ("add_script", "admin"), ("search_skills", "user"),
     ("list_skills", "user"), ("test_skill", "user"),
     ("memory_save", "user"), ("memory_search", "user"), ("memory_list", "user"),
     ("cron_add", "admin"), ("cron_list", "user"), ("cron_remove", "admin"),
     ("web_search", "user"), ("web_fetch", "user")]

/-- The `ToolGuard` state after `compileDangerousPatterns` and
`initProtectedPaths` ran: config plus the compiled pattern list and the
parallel `defaultPatternCount` slice (true at indices holding a default
pattern, false at indices holding a custom one). -/
structure ToolGuard where
  cfg : ToolGuardConfig
  dangerousPatterns : List DangerousPattern
  defaultPatternCount : List Bool
  protectedPaths : List String

/-- `compileDangerousPatterns` from tool_guard.go: default patterns are
compiled first, then the custom patterns from `cfg.DangerousCommands`
(appended after the defaults); `defaultPatternCount` records true for every
default and false for every custom pattern.  The regex compilation itself is
abstracted: `defaults` stands for the 15 built-in compiled regexes and
`customs` for the successfully compiled custom ones. -/
def compileDangerousPatterns (defaults customs : List DangerousPattern) :
    List DangerousPattern × List Bool :=
  (defaults ++ customs,
   defaults.map (fun _ => true) ++ customs.map (fun _ => false))

/-- `NewToolGuard`, restricted to the state the checks read: stores the config
and the compiled patterns (audit-log opening and logging are external IO). -/
def NewToolGuard (cfg : ToolGuardConfig) (defaults customs : List DangerousPattern)
    (protected_ : List String) : ToolGuard :=
  let compiled := compileDangerousPatterns defaults customs
  { cfg := cfg
    dangerousPatterns := compiled.1
    defaultPatternCount := compiled.2
    protectedPaths := protected_ }

/-- `hasPermission` from tool_guard.go: does the caller level meet the
required permission (required is the string stored in the config map)? -/
def hasPermission (callerLevel : AccessLevel) (required : String) : Bool :=
  if required = "public" then true
  else if required = "user" then
    callerLevel = .owner ∨ callerLevel = .admin ∨ callerLevel = .user
  else if required = "admin" then
    callerLevel = .owner ∨ callerLevel = .admin
  else if required = "owner" then
    callerLevel = .owner
  else false

/-- Go `map` lookup `g.cfg.ToolPermissions[toolName]` over the association
list, with found flag. -/
def lookupPerm (perms : List (String × String)) (toolName : String) : Option String :=
  (perms.find? (fun p => p.1 = toolName)).map (fun p => p.2)

/-- `checkToolPermission` from tool_guard.go: default requirement is "user"
when the tool has no entry in `ToolPermissions`. -/
def checkToolPermission (g : ToolGuard) (toolName : String) (callerLevel : AccessLevel) :
    ToolCheckResult :=
  let required := (lookupPerm g.cfg.ToolPermissions toolName).getD "user"
  if hasPermission callerLevel required then
    { Allowed := true }
  else
    { Allowed := false
      Reason := "tool " ++ toolName ++ " requires " ++ required ++ " access" }

/-- The sudo detection of `checkCommandSafety`:
`strings.Contains(command, "sudo ") || strings.HasPrefix(command, "sudo")`. -/
def isSudoCommand (command : String) : Bool :=
  strContains command "sudo " || strHasPrefix command "sudo"

/-- The sudo branch of `checkCommandSafety`: `some r` when the command is
rejected there, `none` when control falls through to the reboot check. -/
def sudoCheck (cfg : ToolGuardConfig) (callerLevel : AccessLevel) : Option ToolCheckResult :=
  if cfg.AllowSudo then
    if callerLevel ≠ .owner ∧ callerLevel ≠ .admin then
      some { Allowed := false, Reason := "sudo commands require at least admin access" }
    else none
  else if cfg.BlockSudo then
    if callerLevel ≠ .owner then
      some { Allowed := false
             Reason := "sudo commands are disabled in config (allow_sudo: false)" }
    else none
  else none

/-- The keywords of the reboot/shutdown loop in `checkCommandSafety`. -/
def rebootKeywords : List String := ["shutdown", "reboot", "poweroff", "halt"]

/-- The reboot/shutdown loop of `checkCommandSafety` over its keyword list:
first keyword contained in the command that is rejected wins. -/
def rebootCheck (allowReboot : Bool) (callerLevel : AccessLevel) (command : String) :
    List String → Option ToolCheckResult
  | [] => none
  | kw :: rest =>
    if strContains command kw then
      if ¬ allowReboot then
        some { Allowed := false
               Reason := kw ++ " is blocked (allow_reboot: false in config)" }
      else if callerLevel ≠ .owner then
        some { Allowed := false, Reason := kw ++ " requires owner access" }
      else rebootCheck allowReboot callerLevel command rest
    else rebootCheck allowReboot callerLevel command rest

/-- The destructive-pattern loop of `checkCommandSafety`, carrying the index
`i` and the length of `defaultPatternCount` for the blocked-reason label: a
matching pattern is skipped when `allow_destructive` is on and the caller is
the owner, otherwise it rejects the command. -/
def destructiveCheck (allowDestructive : Bool) (callerLevel : AccessLevel)
    (command : String) (dpcLen : Nat) (i : Nat) :
    List DangerousPattern → Option ToolCheckResult
  | [] => none
  | pat :: rest =>
    if pat.matchString command then
      if allowDestructive ∧ callerLevel = .owner then
        destructiveCheck allowDestructive callerLevel command dpcLen (i + 1) rest
      else
        some { Allowed := false
               Reason := "command blocked by " ++
                 (if i < dpcLen then "default safety rule" else "safety rule") ++
                 ": " ++ pat.source ++ " (set allow_destructive: true to override)" }
    else destructiveCheck allowDestructive callerLevel command dpcLen (i + 1) rest

/-- `checkCommandSafety` from tool_guard.go: sudo gate, reboot gate, then the
destructive-pattern loop; an empty command is allowed outright. -/
def checkCommandSafety (g : ToolGuard) (command : String) (callerLevel : AccessLevel) :
    ToolCheckResult :=
  if command = "" then { Allowed := true }
  else
    match (if isSudoCommand command then sudoCheck g.cfg callerLevel else none) with
    | some r => r
    | none =>
      match rebootCheck g.cfg.AllowReboot callerLevel command rebootKeywords with
      | some r => r
      | none =>
        match destructiveCheck g.cfg.AllowDestructive callerLevel command
            g.defaultPatternCount.length 0 g.dangerousPatterns with
        | some r => r
        | none => { Allowed := true }

/-- `extractSSHHost` from tool_guard.go: text before the first colon of an
scp-style `user@host:/path` argument (empty when no colon leads). -/
def extractSSHHost (s : String) : String :=
  match s.toList.findIdx? (fun c => c = ':') with
  | some idx => if 0 < idx then strTake s idx else ""
  | none => ""

/-- Stripping `user@` in `checkSSHHost`: the text after the first `@`. -/
def stripSSHUser (host : String) : String :=
  match host.splitOn "@" with
  | [] => host
  | [_] => host
  | _ :: rest => "@".intercalate rest

/-- One iteration of the allowlist loop in `checkSSHHost`. -/
def sshHostAllowed (host : String) (allowed : String) : Bool :=
  if allowed = "*" then true
  else if strHasPrefix allowed "*." then
    let suffix := strDrop allowed 1
    (strHasSuffix host suffix || host = strDrop allowed 2) || host = allowed
  else host = allowed

/-- `checkSSHHost` from tool_guard.go: empty allowlist admits every host;
otherwise the `user@` prefix is stripped and the list is scanned with `*`
and `*.suffix` wildcards. -/
def checkSSHHost (g : ToolGuard) (host : String) : ToolCheckResult :=
  if g.cfg.SSHAllowedHosts.isEmpty then { Allowed := true }
  else
    let host := stripSSHUser host
    if g.cfg.SSHAllowedHosts.any (fun a => sshHostAllowed host a) then
      { Allowed := true }
    else
      { Allowed := false
        Reason := "SSH host " ++ host ++
          " not in allowed list. Configure security.ssh_allowed_hosts." }

/-- `filepath.Abs`, modelled with an explicit working directory for clean
relative paths: absolute paths (leading slash) pass through. -/
def absOf (cwd path : String) : String :=
  if strHasPrefix path "/" then path else cwd ++ "/" ++ path

/-- `filepath.Match` restricted to the glob features the guard's protected
paths use: literal characters, `*` (any run without a slash) and `?` (any
single non-slash character); character classes are not modelled. -/
def globMatch : List Char → List Char → Bool
  | [], [] => true
  | [], _ :: _ => false
  | '*' :: ps, [] => globMatch ps []
  | '*' :: ps, c :: cs =>
    globMatch ps (c :: cs) || (c ≠ '/' && globMatch ('*' :: ps) cs)
  | '?' :: ps, c :: cs => c ≠ '/' && globMatch ps cs
  | '?' :: _, [] => false
  | p :: ps, c :: cs => p = c && globMatch ps cs
  | _ :: _, [] => false

/-- One iteration of the protected-paths loop in `checkPathSafety`: `some r`
when the path is rejected by this entry, `none` to continue the scan.  The
admin read exemption applies to the exact/prefix match, as in the source. -/
def protectedPathCheck (callerLevel : AccessLevel) (toolName path absPath : String)
    (protected_ : String) : Option ToolCheckResult :=
  if absPath = protected_ ∨ strHasPrefix absPath (protected_ ++ "/") = true then
    if toolName = "read_file" ∧ callerLevel = .admin then none
    else
      some { Allowed := false
             Reason := "path " ++ path ++ " is protected and requires owner access" }
  else if globMatch protected_.toList absPath.toList then
    some { Allowed := false
           Reason := "path " ++ path ++ " matches protected pattern " ++ protected_ }
  else none

/-- The protected-paths loop of `checkPathSafety`. -/
def protectedPathsLoop (callerLevel : AccessLevel) (toolName path absPath : String) :
    List String → Option ToolCheckResult
  | [] => none
  | p :: rest =>
    match protectedPathCheck callerLevel toolName path absPath p with
    | some r => some r
    | none => protectedPathsLoop callerLevel toolName path absPath rest

/-- `checkPathSafety` from tool_guard.go: empty paths and the owner pass;
otherwise the resolved absolute path is scanned against the protected list. -/
def checkPathSafety (g : ToolGuard) (cwd path : String) (callerLevel : AccessLevel)
    (toolName : String) : ToolCheckResult :=
  if path = "" then { Allowed := true }
  else if callerLevel = .owner then { Allowed := true }
  else
    let absPath := absOf cwd path
    match protectedPathsLoop callerLevel toolName path absPath g.protectedPaths with
    | some r => r
    | none => { Allowed := true }

/-- A tool call's argument map `map[string]any`, restricted to the string
lookups the guard performs; a missing or non-string entry reads as "". -/
def lookupArg (args : List (String × String)) (key : String) : String :=
  ((args.find? (fun p => p.1 = key)).map (fun p => p.2)).getD ""

/-- `ToolGuard.Check` from tool_guard.go: disabled guard admits everything;
auto-approved tools bypass all checks; then tool permission, bash/exec
command safety, SSH host allowlist and file path protection run in order,
and the final result carries the `RequireConfirmation` flag. -/
def ToolGuard.Check (g : ToolGuard) (cwd toolName : String) (callerLevel : AccessLevel)
    (args : List (String × String)) : ToolCheckResult :=
  if ¬ g.cfg.Enabled then { Allowed := true }
  else if g.cfg.AutoApprove.contains toolName then { Allowed := true }
  else
    let requiresConfirmation := g.cfg.RequireConfirmation.contains toolName
    let permResult := checkToolPermission g toolName callerLevel
    if ¬ permResult.Allowed then permResult
    else
      let afterCommand :=
        if toolName = "bash" ∨ toolName = "exec" then
          let command := lookupArg args "command"
          let r := checkCommandSafety g command callerLevel
          if ¬ r.Allowed then some r else none
        else none
      match afterCommand with
      | some r => r
      | none =>
        let afterSSH :=
          if toolName = "ssh" ∨ toolName = "scp" then
            let host := lookupArg args "host"
            let host :=
              if host = "" then
                let h := extractSSHHost (lookupArg args "source")
                if h = "" then extractSSHHost (lookupArg args "destination") else h
              else host
            let r := checkSSHHost g host
            if ¬ r.Allowed then some r else none
          else none
        match afterSSH with
        | some r => r
        | none =>
          let afterPath :=
            if toolName = "read_file" ∨ toolName = "write_file" ∨ toolName = "edit_file" then
              let path := lookupArg args "path"
              let r := checkPathSafety g cwd path callerLevel toolName
              if ¬ r.Allowed then some r else none
            else none
          match afterPath with
          | some r => r
          | none => { Allowed := true, RequiresConfirmation := requiresConfirmation }

/-! ## MessageQueue (message_queue.go)

The per-session queue state is the `items` slice of `sessionQueue`; time is
an abstract non-negative instant (`time.Now()` readings, monotone across a
run).  The debounce timer and the logger are external effects and do not
touch `items`. -/

/-- `DefaultMaxPending` from message_queue.go. -/
def DefaultMaxPending : Nat := 20

/-- `DedupWindowSec` from message_queue.go, in abstract time units. -/
def DedupWindowSec : Nat := 5

/-- `queuedMessage` from message_queue.go: message content plus its enqueue
instant (the incoming message is reduced to its content string, the only
field `Enqueue` reads). -/
structure QueuedMessage where
  content : String
  enqueued : Nat
deriving DecidableEq

/-- `MessageQueue.Enqueue` from message_queue.go, acting on one session's
`items` slice: dedup (same content within the dedup window) returns false and
leaves the slice alone; otherwise, when the slice is full (`len >= maxPending`)
the oldest entry is dropped, and the new message is appended.  Timer setup is
an external effect. -/
def Enqueue (dedupSec maxPending : Nat) (items : List QueuedMessage)
    (content : String) (now : Nat) : Bool × List QueuedMessage :=
  if items.any (fun m => m.content == content && decide (now - m.enqueued < dedupSec)) then
    (false, items)
  else
    let items1 := if maxPending ≤ items.length then items.drop 1 else items
    (true, items1 ++ [⟨content, now⟩])

/-- A sequence of `Enqueue` calls on one session queue: returns the list of
returned flags and the final `items` slice. -/
def EnqueueRun (dedupSec maxPending : Nat) :
    List QueuedMessage → List (String × Nat) → List Bool × List QueuedMessage
  | items, [] => ([], items)
  | items, (c, t) :: rest =>
    let step := Enqueue dedupSec maxPending items c t
    let restRun := EnqueueRun dedupSec maxPending step.2 rest
    (step.1 :: restRun.1, restRun.2)

/-- `MessageQueue.Drain` from message_queue.go, on one session's `items`:
returns the pending contents and clears the slice. -/
def Drain (items : List QueuedMessage) : List String × List QueuedMessage :=
  (items.map (fun m => m.content), [])

/-! ## The processing flag and concurrent dispatch (setup_skills.go)

`messageLoop` dispatches every incoming message on its own goroutine
(`go a.handleMessage(msg)`).  Step 1b of `handleMessage` reads

    if a.messageQueue.IsProcessing(sessionID) { ... Enqueue ...; return }
    a.messageQueue.SetProcessing(sessionID, true)
    defer a.messageQueue.SetProcessing(sessionID, false)

`IsProcessing` and `SetProcessing` each take the queue mutex, so each call is
one atomic step, but the check and the set are two separate critical
sections.  The model below runs two handler goroutines for the same session
as interleaved atomic steps over the shared `processing` flag. -/

/-- Program counter of one `handleMessage` goroutine at step 1b:
`preCheck` = about to call `IsProcessing`; `queued` = took the enqueue-and-
return branch; `preSet` = passed the check, about to call `SetProcessing`;
`run` = inside the agent-run section; `done` = returned (the deferred
`SetProcessing(false)` ran). -/
inductive HandlerPC where
  | preCheck
  | preSet
  | run
  | queued
  | done
deriving DecidableEq

/-- One atomic step of a handler goroutine given the current flag: the
returned pair is the new flag and the new program counter. -/
def handlerStep (flag : Bool) : HandlerPC → Bool × HandlerPC
  | .preCheck => if flag then (flag, .queued) else (flag, .preSet)
  | .preSet => (true, .run)
  | .run => (false, .done)
  | pc => (flag, pc)

/-- Shared state of two concurrently dispatched handlers for one session. -/
structure DispatchState where
  processing : Bool
  pc1 : HandlerPC
  pc2 : HandlerPC
deriving DecidableEq

/-- Scheduler step: `false` advances goroutine 1, `true` advances goroutine 2. -/
def dispatchStep (s : DispatchState) (tid : Bool) : DispatchState :=
  if tid then
    let step := handlerStep s.processing s.pc2
    ⟨step.1, s.pc1, step.2⟩
  else
    let step := handlerStep s.processing s.pc1
    ⟨step.1, step.2, s.pc2⟩

/-- Run a schedule (interleaving) from a state. -/
def execSchedule : DispatchState → List Bool → DispatchState
  | s, [] => s
  | s, t :: ts => execSchedule (dispatchStep s t) ts

/-- Both handlers dispatched, neither has reached step 1b yet. -/
def initDispatch : DispatchState := ⟨false, .preCheck, .preCheck⟩

/-- Number of agent runs currently active in a dispatch state. -/
def concurrentRuns (s : DispatchState) : Nat :=
  (if s.pc1 = .run then 1 else 0) + (if s.pc2 = .run then 1 else 0)

/-! ## Assistant.executeAgent and StopActiveRun (setup_skills.go)

`executeAgent` derives a cancelable context `runCtx` from the assistant's
root context, stores its cancel function in `activeRuns[runKey]`, runs the
agent and, in a deferred block, deletes the entry and cancels the context.
`runCancelled` models `runCtx.Err() != nil` at the error check: true exactly
when the stored cancel function was invoked (`/stop` via `StopActiveRun`) or
the root context was cancelled — a run-deadline timeout fires inside the
agent's own derived timeout context and leaves `runCtx.Err()` nil.
`agentOutcome` is what `agent.RunWithUsage` returned (token-usage recording
is an external effect).  The `activeRuns` map is modelled by its key set. -/

structure ExecuteAgentResult where
  reply : String
  loggedError : Bool
  activeRuns : List String
deriving DecidableEq

/-- `Assistant.executeAgent`: insert the run key, run the agent, always
remove the key on exit; a cancelled context yields the literal reply
"Agent stopped." without logging an error, any other agent error is logged
and yields the apology reply. -/
def executeAgent (activeRuns : List String) (workspaceID sessionID : String)
    (runCancelled : Bool) (agentOutcome : Except String String) : ExecuteAgentResult :=
  let runKey := workspaceID ++ ":" ++ sessionID
  let running := runKey :: activeRuns
  let finalRuns := running.filter (fun k => k ≠ runKey)
  match agentOutcome with
  | .error e =>
    if runCancelled then
      { reply := "Agent stopped.", loggedError := false, activeRuns := finalRuns }
    else
      { reply := "Sorry, I encountered an error: " ++ e
        loggedError := true
        activeRuns := finalRuns }
  | .ok response =>
    { reply := response, loggedError := false, activeRuns := finalRuns }

/-- `Assistant.StopActiveRun`: look up the run key, delete it, and invoke the
stored cancel function when present (stored cancel functions are never nil).
Returns whether a run was stopped, together with the new map. -/
def StopActiveRun (activeRuns : List String) (workspaceID sessionID : String) :
    Bool × List String :=
  let runKey := workspaceID ++ ":" ++ sessionID
  if activeRuns.contains runKey then
    (true, activeRuns.filter (fun k => k ≠ runKey))
  else
    (false, activeRuns)

/-! ## The agent loop's context-overflow recovery (agent.go)

Message contents are Go byte-strings; `len`, slicing and concatenation on
them are modelled through the strings' character lists.  The LLM endpoint is
external: an oracle maps the index of the call within
`doLLMCallWithOverflowRetry` to the outcome `agent.llm` returned (a response,
or an error string).  The per-call timeout context is an external effect. -/

/-- `chatMessage` from the copilot package, restricted to the fields the
compaction helpers read (`tool_calls` are opaque to them). -/
structure chatMessage where
  Role : String
  Content : String
  ToolCallID : String := ""
deriving DecidableEq

/-- `DefaultMaxCompactionAttempts` from agent.go. -/
def DefaultMaxCompactionAttempts : Nat := 3

/-- `isContextOverflow` from agent.go: does the error text indicate a
context-length overflow? -/
def isContextOverflow (e : String) : Bool :=
  let s := strToLower e
  strContains s "context_length_exceeded" ||
  strContains s "maximum context length" ||
  (strContains s "400" && strContains s "tokens")

/-- `AgentRun.truncateToolResults` from agent.go: every tool-role message
whose content exceeds `maxLen` characters is replaced by its first
`keepChars` characters plus the literal suffix "... [truncated]", where
`keepChars` is 1000 capped so that the result fits in `maxLen`; all other
messages are returned unchanged, in order.  (Go's `maxLen <= 0` default
branch is modelled by `maxLen = 0`; a `maxLen` in 1..14 would make the Go
code slice with a negative index and panic, and is outside this model.) -/
def truncateToolResults (messages : List chatMessage) (maxLen : Nat) : List chatMessage :=
  let maxLen := if maxLen = 0 then 2000 else maxLen
  let truncSuffix := "... [truncated]"
  let keepChars := if maxLen < 1000 + truncSuffix.length then maxLen - truncSuffix.length else 1000
  messages.map fun m =>
    if m.Role = "tool" ∧ maxLen < m.Content.length then
      { m with Content := strTake m.Content keepChars ++ truncSuffix }
    else m

/-- `hasOversizedToolResults` from agent.go. -/
def hasOversizedToolResults (messages : List chatMessage) (maxLen : Nat) : Bool :=
  messages.any fun m => m.Role == "tool" && decide (maxLen < m.Content.length)

/-- `AgentRun.compactMessages` from agent.go: keep the leading system message
(when there is one) plus the last `keepRecent` of the rest; without a system
message keep the last `keepRecent`. -/
def compactMessages (messages : List chatMessage) (keepRecent : Nat) : List chatMessage :=
  if messages.length ≤ keepRecent + 1 then messages
  else
    match messages with
    | first :: rest =>
      if first.Role = "system" then
        if rest.length ≤ keepRecent then first :: rest
        else first :: rest.drop (rest.length - keepRecent)
      else
        if messages.length ≤ keepRecent then messages
        else messages.drop (messages.length - keepRecent)
    | [] => []

/-- `LLMResponse`, restricted to the content the retry loop returns (usage
recording is an external effect). -/
structure LLMResponse where
  Content : String
deriving DecidableEq

/-- The `keepRecent -= 5; if keepRecent < 6 { keepRecent = 6 }` update at the
end of a compaction round in `doLLMCallWithOverflowRetry`. -/
def nextKeepRecent (keepRecent : Nat) : Nat :=
  if keepRecent - 5 < 6 then 6 else keepRecent - 5

/-- The retry loop of `AgentRun.doLLMCallWithOverflowRetry`, with the loop
expressed as recursion on the remaining attempts (`fuel`, starting at
`maxCompactionAttempts`, so `attempt + fuel` is constant and the exhaustion
error names `attempt = maxCompactionAttempts`).  The result carries, as the
run's observable trace, the list of message lists sent to the LLM, one per
call, in order. -/
def doLLMCallAux (oracle : Nat → Except String LLMResponse) :
    Nat → Nat → Bool → Nat → List chatMessage →
    Except String LLMResponse × List (List chatMessage)
  | attempt, 0, _, _, _ =>
    (.error ("context overflow: compacted " ++ toString attempt ++
      " times but still exceeded context limit"), [])
  | attempt, fuel + 1, toolResultTruncated, keepRecent, messages =>
    match oracle attempt with
    | .ok resp => (.ok resp, [messages])
    | .error e =>
      if ¬ isContextOverflow e then (.error e, [messages])
      else if ¬ toolResultTruncated ∧ hasOversizedToolResults messages 4000 then
        let rest := doLLMCallAux oracle (attempt + 1) fuel true keepRecent
          (truncateToolResults messages 4000)
        (rest.1, messages :: rest.2)
      else
        let compacted := truncateToolResults (compactMessages messages keepRecent) 2000
        let rest := doLLMCallAux oracle (attempt + 1) fuel toolResultTruncated
          (nextKeepRecent keepRecent) compacted
        (rest.1, messages :: rest.2)

/-- `AgentRun.doLLMCallWithOverflowRetry`: up to `maxCompactionAttempts` LLM
calls, starting untruncated with `keepRecent = 20`. -/
def doLLMCallWithOverflowRetry (oracle : Nat → Except String LLMResponse)
    (maxCompactionAttempts : Nat) (messages : List chatMessage) :
    Except String LLMResponse × List (List chatMessage) :=
  doLLMCallAux oracle 0 maxCompactionAttempts false 20 messages

/-! ## PromptComposer (prompt_layers.go)

`Compose` reads the config, the session and several external sources: the
bootstrap files on disk, the memory store, the clock, hostname and working
directory.  These process-level inputs are gathered in `ComposeEnv`. -/

/-- One `ConversationEntry` of a session's history (the composer and the
compaction engine read the two text fields). -/
structure ConversationEntry where
  UserMessage : String
  AssistantResponse : String
deriving DecidableEq

/-- The fields of `Config` the composer and the assistant read.
`TokenBudget` is the hot-reloadable budget field of the Go config
(setup_skills.go keeps it up to date); no composer code reads it. -/
structure Config where
  Name : String
  Model : String
  Language : String
  Timezone : String
  Instructions : String
  MemoryMaxMessages : Nat
  TokenBudget : Nat

/-- The session state `Compose` reads: thinking level, session facts, active
skills, the session config's business context and the history. -/
structure Session where
  thinkingLevel : String
  facts : List String
  activeSkills : List String
  businessContext : String
  history : List ConversationEntry

/-- Modelled from the spec: `Session.RecentHistory(n)` is not among the
repository's files (only its callers are); the spec's conversation layer is
the "Last N entries" of the history. -/
def Session.RecentHistory (s : Session) (n : Nat) : List ConversationEntry :=
  s.history.drop (s.history.length - n)

/-- The process-level inputs of `Compose`: bootstrap file contents found in
the search directories (per file name), the memory store (`none` = no store
configured; otherwise `RecentFacts 15 input` per input), skill prompts, the
formatted clock readings, and the runtime identifiers. -/
structure ComposeEnv where
  bootstrap : String → Option String
  recentFacts : Option (String → String)
  skillGetter : Option (String → Option String)
  nowFormatted : String
  dayName : String
  goos : String
  goarch : String
  hostname : String
  cwd : String

/-- The layer priorities of prompt_layers.go (`type PromptLayer int`). -/
def LayerCore : Nat := 0
def LayerSafety : Nat := 5
def LayerIdentity : Nat := 10
def LayerThinking : Nat := 12
def LayerBootstrap : Nat := 15
def LayerBusiness : Nat := 20
def LayerSkills : Nat := 40
def LayerMemory : Nat := 50
def LayerTemporal : Nat := 60
def LayerConversation : Nat := 70
def LayerRuntime : Nat := 80

/-- `layerEntry` from prompt_layers.go. -/
structure layerEntry where
  layer : Nat
  content : String
deriving DecidableEq

/-- `buildCoreLayer`: base identity and tooling guidance. -/
def buildCoreLayer (cfg : Config) : String :=
  "You are " ++ cfg.Name ++ ", a personal assistant running inside GoClaw.\n\n" ++
  "## Tooling\n\n" ++
  "You have access to tools for: file I/O (read, write, edit, search, glob), " ++
  "bash execution (full system access), SSH/SCP (remote machines), " ++
  "web search and fetch, memory (save/search/list), " ++
  "scheduling (cron), and skill management (install/create/remove).\n\n" ++
  "Tool names are case-sensitive. Call tools exactly as listed.\n" ++
  "TOOLS.md does not control tool availability — it is your cheat sheet for environment-specific notes.\n\n" ++
  "## Tool Call Style\n\n" ++
  "Default: do not narrate routine, low-risk tool calls — just call the tool.\n" ++
  "Narrate only when it helps: multi-step work, complex problems, sensitive actions (deletions, deployments), or when the user explicitly asks.\n" ++
  "Keep narration brief and value-dense. Avoid repeating obvious steps.\n" ++
  "Use plain human language unless in a technical context.\n"

/-- `buildSafetyLayer`: the fixed safety guardrails text. -/
def buildSafetyLayer : String :=
  "## Safety\n\n" ++
  "You have no independent goals: do not pursue self-preservation, replication, resource acquisition, or power-seeking. Avoid long-term plans beyond the user's request.\n\n" ++
  "Prioritize safety and human oversight over task completion. If instructions conflict, pause and ask. Comply with stop/pause/audit requests and never bypass safeguards.\n\n" ++
  "Do not manipulate or persuade anyone to expand access or disable safeguards. Do not copy yourself or change system prompts, safety rules, or tool policies unless explicitly requested by the owner.\n\n" ++
  "When using destructive tools (rm, drop, deploy): confirm with the user first unless they've explicitly pre-approved the action.\n\n" ++
  "File operations: prefer reversible actions. Use trash over rm. Create backups before major changes.\n\n" ++
  "SSH/remote: only connect to known hosts. Don't store passwords in plaintext. Use the vault for secrets."

/-- `buildThinkingLayer`: the hint for the session's `/think` level. -/
def buildThinkingLayer (session : Session) : String :=
  let level := session.thinkingLevel
  if level = "" ∨ level = "off" then ""
  else
    let instr :=
      if level = "low" then
        some "Think step-by-step when the task is complex. Keep reasoning brief for simple tasks."
      else if level = "medium" then
        some "Think through problems systematically. Show your reasoning for non-trivial tasks."
      else if level = "high" then
        some "Use extended thinking: reason carefully before answering, consider alternatives, then respond. Favor depth over speed."
      else none
    match instr with
    | some instr => "## Thinking Mode\n\n" ++ instr
    | none => ""

/-- The bootstrap file names `buildBootstrapLayer` looks for, in order. -/
def bootstrapFiles : List String :=
  ["SOUL.md", "AGENTS.md", "IDENTITY.md", "USER.md", "TOOLS.md", "MEMORY.md"]

/-- The per-file processing of `buildBootstrapLayer`: a file that was not
found or whose trimmed content is empty is skipped; large contents are cut at
20000 characters with the truncation note. -/
def bootstrapFileContent (env : ComposeEnv) (name : String) : Option String :=
  match env.bootstrap name with
  | none => none
  | some raw =>
    if (raw.trim).isEmpty then none
    else
      let text := raw.trim
      if 20000 < text.length then
        some (strTake text 20000 ++ "\n\n... [truncated at 20KB]")
      else some text

/-- `buildBootstrapLayer`: loaded bootstrap files as "Project Context", with
the SOUL.md persona note when SOUL.md was loaded. -/
def buildBootstrapLayer (env : ComposeEnv) : String :=
  let files := bootstrapFiles.filterMap fun name =>
    (bootstrapFileContent env name).map fun text => (name, text)
  let hasSoul := files.any fun f => f.1 = "SOUL.md"
  if files.isEmpty then ""
  else
    "# Project Context\n\n" ++
    "The following project context files have been loaded:\n\n" ++
    (if hasSoul then
      "If SOUL.md is present, embody its persona and tone. " ++
      "Avoid stiff, generic replies; follow its guidance unless higher-priority instructions override it.\n\n"
     else "") ++
    String.join (files.map fun f => "## " ++ f.1 ++ "\n\n" ++ f.2 ++ "\n\n")

/-- `buildSkillsLayer`: instructions from the session's active skills. -/
def buildSkillsLayer (env : ComposeEnv) (session : Session) : String :=
  if session.activeSkills.isEmpty then ""
  else
    "## Skills\n\n" ++
    "You have specialized skills available. Each skill provides tools and context.\n\n" ++
    String.join (session.activeSkills.map fun skillName =>
      "### " ++ skillName ++ "\n" ++
      (match env.skillGetter with
       | some getter =>
         match getter skillName with
         | some sp => if sp ≠ "" then sp ++ "\n" else ""
         | none => ""
       | none => "") ++
      "\n")

/-- `buildMemoryLayer`: memory-store recall plus session-scoped facts. -/
def buildMemoryLayer (env : ComposeEnv) (session : Session) (input : String) : String :=
  let parts : List String :=
    (match env.recentFacts with
     | some facts0 =>
       let facts := facts0 input
       if facts ≠ "" then
         ["## Memory Recall\n\nRelevant facts from long-term memory:\n\n" ++ facts]
       else []
     | none => []) ++
    (if ¬ session.facts.isEmpty then
      ["## Session Context\n\n" ++
        String.join (session.facts.map fun fact => "- " ++ fact ++ "\n")]
     else [])
  String.intercalate "\n" parts

/-- `buildTemporalLayer`: current date/time context (clock and timezone
formatting are the environment's `nowFormatted` and `dayName`). -/
def buildTemporalLayer (cfg : Config) (env : ComposeEnv) : String :=
  "## Current Date & Time\n\n" ++ env.nowFormatted ++
  "\nTimezone: " ++ cfg.Timezone ++ "\nDay: " ++ env.dayName

/-- `buildConversationLayer`: recent history renderered as user/assistant
pairs. -/
def buildConversationLayer (cfg : Config) (session : Session) : String :=
  let history := session.RecentHistory cfg.MemoryMaxMessages
  if history.isEmpty then ""
  else
    "## Recent Conversation\n\n" ++
    String.join (history.map fun entry =>
      "**User:** " ++ entry.UserMessage ++ "\n**Assistant:** " ++
        entry.AssistantResponse ++ "\n\n")

/-- `buildRuntimeLayer`: the runtime info line (last in the prompt). -/
def buildRuntimeLayer (cfg : Config) (env : ComposeEnv) : String :=
  "---\nRuntime: agent=" ++ cfg.Name ++ " | model=" ++ cfg.Model ++
  " | os=" ++ env.goos ++ "/" ++ env.goarch ++ " | host=" ++ env.hostname ++
  " | cwd=" ++ env.cwd ++ " | lang=" ++ cfg.Language

/-- Insertion into a layer list ordered ascending by priority (the effect of
`sort.Slice(layers, func(i, j) { layers[i].layer < layers[j].layer })`; the
priorities `Compose` assigns are pairwise distinct, so any correct sort
yields this order). -/
def insertLayer (e : layerEntry) : List layerEntry → List layerEntry
  | [] => [e]
  | x :: xs => if x.layer < e.layer then x :: insertLayer e xs else e :: x :: xs

/-- Sorting the layer list ascending by priority. -/
def sortLayers : List layerEntry → List layerEntry
  | [] => []
  | x :: xs => insertLayer x (sortLayers xs)

/-- `PromptComposer.assembleLayers`: sort ascending by priority, drop empty
contents, join with double newlines. -/
def assembleLayers (layers : List layerEntry) : String :=
  String.intercalate "\n\n"
    ((sortLayers layers).filterMap fun l => if l.content ≠ "" then some l.content else none)

/-- `PromptComposer.Compose`: build the candidate layers (the optional ones
only when non-empty) and assemble them. -/
def Compose (cfg : Config) (env : ComposeEnv) (session : Session) (input : String) :
    String :=
  let layers : List layerEntry :=
    [⟨LayerCore, buildCoreLayer cfg⟩, ⟨LayerSafety, buildSafetyLayer⟩] ++
    (if cfg.Instructions ≠ "" then
      [⟨LayerIdentity, "## Custom Instructions\n\n" ++ cfg.Instructions⟩]
     else []) ++
    (let thinking := buildThinkingLayer session
     if thinking ≠ "" then [⟨LayerThinking, thinking⟩] else []) ++
    (let bootstrap := buildBootstrapLayer env
     if bootstrap ≠ "" then [⟨LayerBootstrap, bootstrap⟩] else []) ++
    (if session.businessContext ≠ "" then
      [⟨LayerBusiness, "## Workspace Context\n\n" ++ session.businessContext⟩]
     else []) ++
    (let skills := buildSkillsLayer env session
     if skills ≠ "" then [⟨LayerSkills, skills⟩] else []) ++
    (let memory := buildMemoryLayer env session input
     if memory ≠ "" then [⟨LayerMemory, memory⟩] else []) ++
    [⟨LayerTemporal, buildTemporalLayer cfg env⟩] ++
    (let conversation := buildConversationLayer cfg session
     if conversation ≠ "" then [⟨LayerConversation, conversation⟩] else []) ++
    [⟨LayerRuntime, buildRuntimeLayer cfg env⟩]
  assembleLayers layers

/-! ## Session compaction (setup_skills.go)

`compactSummarize`, `compactTruncate` and `compactSliding` act on the
session's history vector through `Session.CompactHistory`.  The LLM calls of
the summarize strategy are external: `summaryOutcome` is what
`llmClient.Complete` returned for the summary prompt, and the memory-flush
agent invocation is counted when a memory store is configured.  Daily-log
writing is recorded as the content string handed to `SaveDailyLog`. -/

/-- The synthetic entry `CompactHistory` leaves in place of the removed ones. -/
def compactionSummaryEntry (summary : String) : ConversationEntry :=
  { UserMessage := "[compaction summary]", AssistantResponse := summary }

/-- Modelled from the spec: `Session.CompactHistory(summary, keepRecent)` is
not among the repository's files (only its callers are).  Per the spec it
"atomically replaces the oldest (len − keepRecent) entries with a single
synthetic entry {user: \"[compaction summary]\", assistant: summary} and
returns the removed entries"; a history no longer than `keepRecent` has
nothing to replace.  Returns (new history, removed entries). -/
def CompactHistory (history : List ConversationEntry) (summary : String)
    (keepRecent : Nat) : List ConversationEntry × List ConversationEntry :=
  if history.length ≤ keepRecent then (history, [])
  else
    let removed := history.take (history.length - keepRecent)
    let kept := history.drop (history.length - keepRecent)
    (compactionSummaryEntry summary :: kept, removed)

/-- What one compaction run did to a session: the new history, the removed
entries, how many LLM invocations it made (memory-flush agent run and/or
summary completion), and the content written to the daily log, if any. -/
structure CompactResult where
  history : List ConversationEntry
  removed : List ConversationEntry
  llmCalls : Nat
  dailyLog : Option String
deriving DecidableEq

/-- `Assistant.compactSummarize`: when a memory store is configured, first a
memory-flush agent invocation (one LLM call here; its outcome only gets
logged); then the summary completion, falling back to a fixed text on error;
keep `threshold/4` entries with a floor of 5; finally, when a memory store is
configured and entries were removed, write a daily-log record with the
session id, the summary and the number of removed entries. -/
def compactSummarize (hasMemoryStore : Bool) (sessionID : String)
    (summaryOutcome : Except String String) (threshold : Nat)
    (history : List ConversationEntry) : CompactResult :=
  let flushCalls := if hasMemoryStore then 1 else 0
  let summary :=
    match summaryOutcome with
    | .ok s => s
    | .error _ => "Previous conversation context was compacted."
  let keepRecent := if threshold / 4 < 5 then 5 else threshold / 4
  let compacted := CompactHistory history summary keepRecent
  let dailyLog :=
    if hasMemoryStore ∧ 0 < compacted.2.length then
      some ("### Compacted session: " ++ sessionID ++ "\n\n" ++
        "Summary: " ++ summary ++ "\n\n" ++
        "Entries compacted: " ++ toString compacted.2.length ++ "\n")
    else none
  { history := compacted.1
    removed := compacted.2
    llmCalls := flushCalls + 1
    dailyLog := dailyLog }

/-- `Assistant.compactTruncate`: keep `threshold/2` with a floor of 10, no
LLM call, no daily log. -/
def compactTruncate (threshold : Nat) (history : List ConversationEntry) :
    CompactResult :=
  let keepRecent := if threshold / 2 < 10 then 10 else threshold / 2
  let compacted := CompactHistory history "" keepRecent
  { history := compacted.1, removed := compacted.2, llmCalls := 0, dailyLog := none }

/-- `Assistant.compactSliding`: a fixed window of `threshold/2` with a floor
of 10, no LLM call, no daily log. -/
def compactSliding (threshold : Nat) (history : List ConversationEntry) :
    CompactResult :=
  let windowSize := if threshold / 2 < 10 then 10 else threshold / 2
  let compacted := CompactHistory history "" windowSize
  { history := compacted.1, removed := compacted.2, llmCalls := 0, dailyLog := none }

/-- `Assistant.doCompactSession`: strategy dispatch with "summarize" as the
default, and the `MaxMessages` threshold defaulting to 100 when unset. -/
def doCompactSession (strategy : String) (maxMessages : Nat) (hasMemoryStore : Bool)
    (sessionID : String) (summaryOutcome : Except String String)
    (history : List ConversationEntry) : CompactResult :=
  let threshold := if maxMessages = 0 then 100 else maxMessages
  if strategy = "truncate" then compactTruncate threshold history
  else if strategy = "sliding" then compactSliding threshold history
  else compactSummarize hasMemoryStore sessionID summaryOutcome threshold history

/-! ## Concrete scenario instances

Concrete guards, message lists and environments used to evaluate the
definitions above at specific inputs. -/

/-- A concrete stand-in for two of the compiled default destructive regexes
(`rm` on root, `mkfs`), sufficient for the scenarios below. -/
def defaultPatternsSample : List DangerousPattern :=
  [{ matchString := fun c => strContains c "rm -rf /", source := "\\brm\\s+-rf\\s+/" },
   { matchString := fun c => strContains c "mkfs", source := "\\bmkfs\\b" }]

/-- A custom dangerous-command pattern from configuration. -/
def customPatternSample : DangerousPattern :=
  { matchString := fun c => c = "purge-all", source := "purge-all" }

/-- Guard with a custom pattern and `allow_destructive: true`. -/
def guardCustomAllow : ToolGuard :=
  NewToolGuard
    { DefaultToolGuardConfig with
        AllowDestructive := true
        DangerousCommands := ["purge-all"] }
    defaultPatternsSample [customPatternSample] []

/-- Guard with the default configuration (`allow_sudo: false`,
`block_sudo: true`). -/
def guardDefault : ToolGuard :=
  NewToolGuard DefaultToolGuardConfig defaultPatternsSample [] []

/-- Guard with the tool guard disabled. -/
def guardDisabled : ToolGuard :=
  NewToolGuard { DefaultToolGuardConfig with Enabled := false }
    defaultPatternsSample [] []

/-- Two tool-result messages for the overflow-retry scenario: one of 4097
characters (over 4 KiB = 4096) and one of 4001 characters (over the code's
4000-character threshold but not over 4 KiB). -/
def overflowMessages : List chatMessage :=
  [{ Role := "tool", Content := String.mk (List.replicate 4097 'a'), ToolCallID := "id1" },
   { Role := "tool", Content := String.mk (List.replicate 4001 'b'), ToolCallID := "id2" }]

/-- An LLM oracle that overflows on the first call and succeeds afterwards. -/
def overflowOnceOracle : Nat → Except String LLMResponse :=
  fun n => if n = 0 then .error "context_length_exceeded" else .ok { Content := "done" }

/-- A 12-entry session history whose oldest entry holds a distinctive
secret, for the compaction scenarios. -/
def historySample : List ConversationEntry :=
  { UserMessage := "SECRET42", AssistantResponse := "noted" } ::
    (List.range 11).map fun i =>
      { UserMessage := "u" ++ toString i, AssistantResponse := "a" ++ toString i }

/-- 21 distinct messages (content `"0"` .. `"20"`, one per time unit) for the
queue-cap scenario. -/
def queueInputs : List (String × Nat) :=
  (List.range 21).map fun i => (toString i, i)

/-- A config whose token budget is far below the size of any composed
prompt. -/
def configSample : Config :=
  { Name := "GoClaw", Model := "test-model", Language := "en", Timezone := "UTC"
    Instructions := "", MemoryMaxMessages := 100, TokenBudget := 10 }

/-- A minimal compose environment: no bootstrap files, no memory store, no
skill getter. -/
def envSample : ComposeEnv :=
  { bootstrap := fun _ => none, recentFacts := none, skillGetter := none
    nowFormatted := "2026-02-12 10:00:00", dayName := "Thursday"
    goos := "linux", goarch := "amd64", hostname := "devbox", cwd := "/home/dev" }

/-- A fresh session: no thinking tag, no facts, no skills, empty history. -/
def sessionSample : Session :=
  { thinkingLevel := "", facts := [], activeSkills := [], businessContext := ""
    history := [] }

/-! ## Helper lemmas -/

/-- A command containing no reboot keyword passes the reboot loop. -/
theorem rebootCheck_eq_none (allowReboot : Bool) (lvl : AccessLevel) (command : String)
    (kws : List String) (h : ∀ kw ∈ kws, strContains command kw = false) :
    rebootCheck allowReboot lvl command kws = none := by
  induction kws with
  | nil => rfl
  | cons kw rest ih =>
    have hkw := h kw (List.mem_cons_self kw rest)
    simp only [rebootCheck, hkw]
    exact ih fun k hk => h k (List.mem_cons_of_mem kw hk)

/-- With `allow_destructive` on, the owner passes the destructive loop. -/
theorem destructiveCheck_owner (command : String) (dpcLen : Nat) :
    ∀ (pats : List DangerousPattern) (i : Nat),
      destructiveCheck true .owner command dpcLen i pats = none := by
  intro pats
  induction pats with
  | nil => intro i; rfl
  | cons p rest ih =>
    intro i
    simp only [destructiveCheck]
    split
    · simpa using ih (i + 1)
    · exact ih (i + 1)

/-- A command matching no pattern passes the destructive loop. -/
theorem destructiveCheck_no_match (ad : Bool) (lvl : AccessLevel) (command : String)
    (dpcLen : Nat) : ∀ (pats : List DangerousPattern) (i : Nat),
      (∀ p ∈ pats, p.matchString command = false) →
      destructiveCheck ad lvl command dpcLen i pats = none := by
  intro pats
  induction pats with
  | nil => intro i _; rfl
  | cons p rest ih =>
    intro i h
    have hp := h p (List.mem_cons_self p rest)
    simp only [destructiveCheck, hp]
    exact ih (i + 1) fun q hq => h q (List.mem_cons_of_mem p hq)

/-- Unless `allow_destructive` is on and the caller is the owner, a matching
pattern makes the destructive loop reject the command. -/
theorem destructiveCheck_blocks (ad : Bool) (lvl : AccessLevel) (command : String)
    (dpcLen : Nat) (hno : ¬ (ad = true ∧ lvl = .owner)) :
    ∀ (pats : List DangerousPattern) (i : Nat),
      (∃ p ∈ pats, p.matchString command = true) →
      ∃ r, destructiveCheck ad lvl command dpcLen i pats = some r ∧ r.Allowed = false := by
  intro pats
  induction pats with
  | nil => intro i h; simp at h
  | cons p rest ih =>
    intro i h
    by_cases hp : p.matchString command = true
    · have hres : destructiveCheck ad lvl command dpcLen i (p :: rest) =
          some { Allowed := false
                 Reason := "command blocked by " ++
                   (if i < dpcLen then "default safety rule" else "safety rule") ++
                   ": " ++ p.source ++ " (set allow_destructive: true to override)" } := by
        simp only [destructiveCheck, hp]
        rw [if_pos trivial, if_neg hno]
      exact ⟨_, hres, rfl⟩
    · rw [Bool.not_eq_true] at hp
      simp only [destructiveCheck, hp]
      rcases h with ⟨q, hq, hqm⟩
      rcases List.mem_cons.mp hq with rfl | hq'
      · rw [hp] at hqm; exact absurd hqm (by simp)
      · exact ih (i + 1) ⟨q, hq', hqm⟩

/-- Filtering out a key leaves a list that does not contain it. -/
theorem contains_filter_ne (l : List String) (x : String) :
    (l.filter fun k => k ≠ x).contains x = false := by
  by_contra h
  rw [Bool.not_eq_false] at h
  have hx : x ∈ l.filter fun k => k ≠ x := by
    rw [List.contains, List.elem_iff] at h
    exact h
  have := List.of_mem_filter hx
  simp at this

/-! ## C9 — disabled guard admits everything -/

/-- C9: when the tool guard is disabled (`Enabled=false`), `Check` returns
`Allowed=true` with no confirmation requirement for every working directory,
tool name, caller level and argument map — no further check runs. -/
theorem C9_disabled_guard_allows_everything (g : ToolGuard) (cwd toolName : String)
    (lvl : AccessLevel) (args : List (String × String)) (h : g.cfg.Enabled = false) :
    g.Check cwd toolName lvl args =
      { Allowed := true, Reason := "", RequiresConfirmation := false } := by
  simp [ToolGuard.Check, h]

/-- C9 witness: the disabled sample guard admits a `bash` call with a
destructive command from a plain user, with no confirmation required. -/
theorem C9_disabled_guard_witness :
    guardDisabled.Check "/home/dev" "bash" .user [("command", "rm -rf /")] =
      { Allowed := true, Reason := "", RequiresConfirmation := false } :=
  C9_disabled_guard_allows_everything guardDisabled "/home/dev" "bash" .user
    [("command", "rm -rf /")] rfl

/-! ## C2 — destructive-pattern blocking -/

/-- C2 counterexample: the command "purge-all" matches only the custom
(non-default) configured pattern, yet with `allow_destructive: true` an owner
caller is allowed — custom patterns do not "always block". -/
theorem C2_custom_pattern_owner_bypass :
    guardCustomAllow.cfg.AllowDestructive = true ∧
    guardCustomAllow.defaultPatternCount.getLast? = some false ∧
    (guardCustomAllow.dangerousPatterns.getLast?).map
      (fun p => p.matchString "purge-all") = some true ∧
    (guardCustomAllow.dangerousPatterns.take 2).all
      (fun p => ¬ p.matchString "purge-all") = true ∧
    checkCommandSafety guardCustomAllow "purge-all" .owner =
      { Allowed := true, Reason := "", RequiresConfirmation := false } := by
  exact ⟨rfl, rfl, rfl, rfl, rfl⟩

/-- C2 amended: for a bash/exec command that triggers neither the sudo nor
the reboot gate, and that matches some dangerous pattern — default or custom
alike — the guard allows the command exactly when `allow_destructive=true`
and the caller is the owner; every other caller/configuration is blocked. -/
theorem C2_dangerous_pattern_blocking (defaults customs : List DangerousPattern)
    (cfg : ToolGuardConfig) (paths : List String) (command : String) (lvl : AccessLevel)
    (hne : command ≠ "")
    (hsudo : isSudoCommand command = false)
    (hreboot : ∀ kw ∈ rebootKeywords, strContains command kw = false)
    (hmatch : ∃ p ∈ defaults ++ customs, p.matchString command = true) :
    (checkCommandSafety (NewToolGuard cfg defaults customs paths) command lvl).Allowed
      = true ↔ (cfg.AllowDestructive = true ∧ lvl = .owner) := by
  have hcfg : (NewToolGuard cfg defaults customs paths).cfg = cfg := rfl
  have hpats : (NewToolGuard cfg defaults customs paths).dangerousPatterns
      = defaults ++ customs := rfl
  simp only [checkCommandSafety, hcfg, hpats, if_neg hne, hsudo, Bool.false_eq_true,
    if_false, rebootCheck_eq_none cfg.AllowReboot lvl command rebootKeywords hreboot]
  by_cases hcase : cfg.AllowDestructive = true ∧ lvl = .owner
  · obtain ⟨had, hlvl⟩ := hcase
    subst hlvl
    rw [had, destructiveCheck_owner]
    simp [had]
  · obtain ⟨r, hr, hra⟩ := destructiveCheck_blocks cfg.AllowDestructive lvl command
      (NewToolGuard cfg defaults customs paths).defaultPatternCount.length hcase
      (defaults ++ customs) 0 hmatch
    rw [hr]
    simp only [hra, Bool.false_eq_true, false_iff]
    exact hcase

/-- C2 witness: a plain user issuing "purge-all" (matching the custom
pattern) with `allow_destructive: false` is blocked. -/
theorem C2_dangerous_pattern_witness :
    (checkCommandSafety
        (NewToolGuard DefaultToolGuardConfig defaultPatternsSample
          [customPatternSample] []) "purge-all" .user).Allowed = true ↔
      (DefaultToolGuardConfig.AllowDestructive = true ∧ AccessLevel.user = .owner) :=
  C2_dangerous_pattern_blocking defaultPatternsSample [customPatternSample]
    DefaultToolGuardConfig [] "purge-all" .user (by decide) rfl
    (by decide)
    ⟨customPatternSample, by simp [defaultPatternsSample, customPatternSample], rfl⟩

/-! ## C5 — sudo gating -/

/-- C5 counterexample: with the default configuration (`allow_sudo: false`,
`block_sudo: true`) an owner caller may run a sudo command — sudo is not
blocked "for every caller level" when `allow_sudo=false`. -/
theorem C5_owner_sudo_bypass :
    guardDefault.cfg.AllowSudo = false ∧
    isSudoCommand "sudo ls" = true ∧
    checkCommandSafety guardDefault "sudo ls" .owner =
      { Allowed := true, Reason := "", RequiresConfirmation := false } := by
  exact ⟨rfl, rfl, rfl⟩

/-- C5 amended: for a sudo command, (1) with `allow_sudo=true` callers below
admin are rejected with the admin-required reason; (2) with `allow_sudo=false`
and `block_sudo=true` (the default) every caller except the owner is rejected
with the config-disabled reason; and when the command triggers neither the
reboot gate nor any dangerous pattern, (3) with `allow_sudo=true` admin and
owner are allowed, (4) with `allow_sudo=false`, `block_sudo=true` the owner
is allowed, and (5) with both `allow_sudo=false` and `block_sudo=false` every
caller is allowed — no sudo check applies at all. -/
theorem C5_sudo_gating (g : ToolGuard) (command : String) (lvl : AccessLevel)
    (hs : isSudoCommand command = true) :
    (g.cfg.AllowSudo = true → lvl ≠ .owner → lvl ≠ .admin →
      checkCommandSafety g command lvl =
        { Allowed := false, Reason := "sudo commands require at least admin access",
          RequiresConfirmation := false }) ∧
    (g.cfg.AllowSudo = false → g.cfg.BlockSudo = true → lvl ≠ .owner →
      checkCommandSafety g command lvl =
        { Allowed := false,
          Reason := "sudo commands are disabled in config (allow_sudo: false)",
          RequiresConfirmation := false }) ∧
    ((∀ kw ∈ rebootKeywords, strContains command kw = false) →
     (∀ p ∈ g.dangerousPatterns, p.matchString command = false) →
      ((g.cfg.AllowSudo = true → (lvl = .owner ∨ lvl = .admin) →
          (checkCommandSafety g command lvl).Allowed = true) ∧
       (g.cfg.AllowSudo = false → g.cfg.BlockSudo = true → lvl = .owner →
          (checkCommandSafety g command lvl).Allowed = true) ∧
       (g.cfg.AllowSudo = false → g.cfg.BlockSudo = false →
          (checkCommandSafety g command lvl).Allowed = true))) := by
  have hne : command ≠ "" := by
    intro h
    rw [h] at hs
    exact absurd hs (by decide)
  refine ⟨?_, ?_, ?_⟩
  · intro hallow hown hadm
    simp [checkCommandSafety, if_neg hne, hs, sudoCheck, hallow, hown, hadm]
  · intro hallow hblock hown
    simp [checkCommandSafety, if_neg hne, hs, sudoCheck, hallow, hblock, hown]
  · intro hreboot hnomatch
    have hrb := rebootCheck_eq_none g.cfg.AllowReboot lvl command rebootKeywords hreboot
    have hdc := destructiveCheck_no_match g.cfg.AllowDestructive lvl command
      g.defaultPatternCount.length g.dangerousPatterns 0 hnomatch
    refine ⟨?_, ?_, ?_⟩
    · rintro hallow (rfl | rfl) <;>
        simp [checkCommandSafety, if_neg hne, hs, sudoCheck, hallow, hrb, hdc]
    · rintro hallow hblock rfl
      simp [checkCommandSafety, if_neg hne, hs, sudoCheck, hallow, hblock, hrb, hdc]
    · intro hallow hblock
      simp [checkCommandSafety, if_neg hne, hs, sudoCheck, hallow, hblock, hrb, hdc]

/-- C5 witness: with the default configuration a plain user's "sudo ls" is
rejected with the config-disabled reason. -/
theorem C5_sudo_gating_witness :
    checkCommandSafety guardDefault "sudo ls" .user =
      { Allowed := false,
        Reason := "sudo commands are disabled in config (allow_sudo: false)",
        RequiresConfirmation := false } :=
  (C5_sudo_gating guardDefault "sudo ls" .user rfl).2.1 rfl rfl (by decide)

/-! ## C4 — the processing-flag race -/

/-- C4: the interleaving "handler 1 checks, handler 2 checks, handler 1 sets,
handler 2 sets" drives both concurrently dispatched handlers of one session
into the agent-run section at once: two concurrent agent runs. -/
theorem C4_processing_flag_race :
    (execSchedule initDispatch [false, true, false, true]).pc1 = .run ∧
    (execSchedule initDispatch [false, true, false, true]).pc2 = .run ∧
    concurrentRuns (execSchedule initDispatch [false, true, false, true]) = 2 := by
  decide

/-! ## C1 — no token-budget trimming in the composer -/

set_option maxRecDepth 40000 in
/-- C1: at a concrete session whose composed prompt far exceeds the
configured `TokenBudget`, `Compose` still returns every built layer — the
Runtime footer included — joined in priority order: the composer never
consults the budget and never trims. -/
theorem C1_compose_ignores_token_budget :
    configSample.TokenBudget = 10 ∧
    Compose configSample envSample sessionSample "hello" =
      String.intercalate "\n\n"
        [buildCoreLayer configSample, buildSafetyLayer,
         buildTemporalLayer configSample envSample,
         buildRuntimeLayer configSample envSample] ∧
    configSample.TokenBudget <
      (Compose configSample envSample sessionSample "hello").length := by
  refine ⟨rfl, rfl, ?_⟩
  show 10 < (Compose configSample envSample sessionSample "hello").length
  have h : (Compose configSample envSample sessionSample "hello").length = 1906 := rfl
  rw [h]
  omega

/-! ## C7 — cancellation vs. run-deadline timeout -/

/-- C7: when the run context was cancelled through the stored cancel function
and the agent returned an error, the reply is exactly "Agent stopped." and no
error is logged; when the agent errored without external cancellation (the
run-deadline timeout path), the reply is the generic apology string and the
error is logged; in every case the `activeRuns` entry for the session is
removed when the run exits.  `/stop` (`StopActiveRun`) reports success and
removes the entry whenever one is present. -/
theorem C7_stop_yields_agent_stopped (activeRuns : List String) (ws sid : String) :
    (∀ e, executeAgent activeRuns ws sid true (.error e) =
      { reply := "Agent stopped.", loggedError := false,
        activeRuns := ((ws ++ ":" ++ sid) :: activeRuns).filter
          (fun k => k ≠ ws ++ ":" ++ sid) }) ∧
    (∀ e, (executeAgent activeRuns ws sid false (.error e)).reply =
        "Sorry, I encountered an error: " ++ e ∧
      (executeAgent activeRuns ws sid false (.error e)).loggedError = true) ∧
    (∀ (cancelled : Bool) (outcome : Except String String),
      (executeAgent activeRuns ws sid cancelled outcome).activeRuns.contains
        (ws ++ ":" ++ sid) = false) ∧
    (activeRuns.contains (ws ++ ":" ++ sid) = true →
      (StopActiveRun activeRuns ws sid).1 = true ∧
      (StopActiveRun activeRuns ws sid).2.contains (ws ++ ":" ++ sid) = false) := by
  refine ⟨fun e => rfl, fun e => ⟨rfl, rfl⟩, ?_, ?_⟩
  · intro cancelled outcome
    cases outcome with
    | ok r => exact contains_filter_ne _ _
    | error e => cases cancelled <;> exact contains_filter_ne _ _
  · intro h
    simp only [StopActiveRun, h, if_true]
    exact ⟨trivial, contains_filter_ne _ _⟩

/-! ## C6 — queue cap and oldest-first eviction -/

/-- Dropping one more from the whole list equals dropping from the beheaded
list: `(l.drop 1 ++ ys).drop n = (l ++ ys).drop (n + 1)` for non-empty `l`. -/
theorem drop_cons_shift {α : Type} (l ys : List α) (n : Nat) (h : 1 ≤ l.length) :
    (l.drop 1 ++ ys).drop n = (l ++ ys).drop (n + 1) := by
  rw [List.drop_append_eq_append_drop, List.drop_append_eq_append_drop,
    List.drop_drop, List.length_drop]
  have hidx : n - (l.length - 1) = n + 1 - l.length := by omega
  rw [hidx, Nat.add_comm 1 n]

/-- After any run of successful (non-deduplicated) enqueues starting from a
slice within the cap, the final slice is the tail of all entries that fits
the cap. -/
theorem EnqueueRun_final (dedupSec maxPending : Nat) (h1 : 1 ≤ maxPending) :
    ∀ (inputs : List (String × Nat)) (items : List QueuedMessage),
      items.length ≤ maxPending →
      (∀ b ∈ (EnqueueRun dedupSec maxPending items inputs).1, b = true) →
      (EnqueueRun dedupSec maxPending items inputs).2 =
        (items ++ inputs.map fun p => QueuedMessage.mk p.1 p.2).drop
          (items.length + inputs.length - maxPending) := by
  intro inputs
  induction inputs with
  | nil =>
    intro items hlen _
    simp only [EnqueueRun, List.map_nil, List.append_nil, List.length_nil,
      Nat.add_zero]
    rw [Nat.sub_eq_zero_of_le hlen, List.drop_zero]
  | cons msg rest ih =>
    intro items hlen hall
    obtain ⟨c, t⟩ := msg
    by_cases hd :
        (items.any fun m => m.content == c && decide (t - m.enqueued < dedupSec)) = true
    · exfalso
      have hmem : false ∈ (EnqueueRun dedupSec maxPending items ((c, t) :: rest)).1 := by
        simp only [EnqueueRun, Enqueue, hd, eq_self_iff_true, if_true]
        exact List.mem_cons_self _ _
      exact absurd (hall false hmem) (by simp)
    · rw [Bool.not_eq_true] at hd
      have hstep : Enqueue dedupSec maxPending items c t =
          (true, (if maxPending ≤ items.length then items.drop 1 else items) ++
            [⟨c, t⟩]) := by
        simp only [Enqueue, hd, Bool.false_eq_true, if_false]
      have h1eq : (EnqueueRun dedupSec maxPending items ((c, t) :: rest)).1 =
          true :: (EnqueueRun dedupSec maxPending
            ((if maxPending ≤ items.length then items.drop 1 else items) ++
              [⟨c, t⟩]) rest).1 := by
        simp only [EnqueueRun, hstep]
      have h2eq : (EnqueueRun dedupSec maxPending items ((c, t) :: rest)).2 =
          (EnqueueRun dedupSec maxPending
            ((if maxPending ≤ items.length then items.drop 1 else items) ++
              [⟨c, t⟩]) rest).2 := by
        simp only [EnqueueRun, hstep]
      have hall' : ∀ b ∈ (EnqueueRun dedupSec maxPending
          ((if maxPending ≤ items.length then items.drop 1 else items) ++
            [⟨c, t⟩]) rest).1, b = true := by
        intro b hb
        apply hall
        rw [h1eq]
        exact List.mem_cons_of_mem _ hb
      by_cases hfull : maxPending ≤ items.length
      · have hlen' : items.length = maxPending := Nat.le_antisymm hlen hfull
        have hpos : 1 ≤ items.length := le_trans h1 hfull
        rw [if_pos hfull] at h2eq hall'
        have hL : (items.drop 1 ++ [(⟨c, t⟩ : QueuedMessage)]).length =
            items.length := by
          rw [List.length_append, List.length_drop, List.length_singleton]
          omega
        have hnext : (items.drop 1 ++ [(⟨c, t⟩ : QueuedMessage)]).length ≤
            maxPending := by
          rw [hL]; exact hlen
        have hih := ih _ hnext hall'
        rw [h2eq, hih, hL, List.append_assoc, List.singleton_append,
          List.map_cons, List.length_cons]
        have e1 : items.length + rest.length - maxPending = rest.length := by omega
        have e2 : items.length + (rest.length + 1) - maxPending =
            rest.length + 1 := by omega
        rw [e1, e2]
        exact drop_cons_shift items _ rest.length hpos
      · have hnext : (items ++ [(⟨c, t⟩ : QueuedMessage)]).length ≤ maxPending := by
          rw [List.length_append, List.length_singleton]
          omega
        rw [if_neg hfull] at h2eq hall'
        have hih := ih _ hnext hall'
        rw [h2eq, hih, List.append_assoc, List.singleton_append,
          List.map_cons, List.length_cons, List.length_append,
          List.length_singleton]
        have hidx : items.length + 1 + rest.length - maxPending =
            items.length + (rest.length + 1) - maxPending := by omega
        rw [hidx]

/-- C6: after `N > maxPending` successful (non-deduplicated) enqueues into an
empty session queue, the pending slice holds exactly the `maxPending` most
recent messages in arrival order — the oldest `N - maxPending` entries were
evicted — and its length is exactly `maxPending`. -/
theorem C6_queue_cap_evicts_oldest (dedupSec maxPending : Nat)
    (inputs : List (String × Nat)) (h1 : 1 ≤ maxPending)
    (h2 : maxPending < inputs.length)
    (hall : ∀ b ∈ (EnqueueRun dedupSec maxPending [] inputs).1, b = true) :
    (EnqueueRun dedupSec maxPending [] inputs).2 =
      (inputs.map fun p => QueuedMessage.mk p.1 p.2).drop
        (inputs.length - maxPending) ∧
    (EnqueueRun dedupSec maxPending [] inputs).2.length = maxPending := by
  have hfin := EnqueueRun_final dedupSec maxPending h1 inputs [] (by simp) hall
  simp only [List.nil_append, List.length_nil, Nat.zero_add] at hfin
  refine ⟨hfin, ?_⟩
  rw [hfin, List.length_drop, List.length_map]
  omega

/-- C6 witness: 21 distinct messages through a queue capped at the default 20
leave exactly the 20 most recent, "1" .. "20", in arrival order. -/
theorem C6_queue_cap_witness :
    (EnqueueRun DedupWindowSec DefaultMaxPending [] queueInputs).2 =
      (queueInputs.map fun p => QueuedMessage.mk p.1 p.2).drop
        (queueInputs.length - DefaultMaxPending) ∧
    (EnqueueRun DedupWindowSec DefaultMaxPending [] queueInputs).2.length =
      DefaultMaxPending :=
  C6_queue_cap_evicts_oldest DedupWindowSec DefaultMaxPending queueInputs
    (by decide) (by decide) (by decide)

/-! ## C10 — truncateToolResults -/

/-- The length of an `asString` is the length of its character list. -/
theorem length_asString (l : List Char) : (List.asString l).length = l.length := rfl

/-- The length of a string is the length of its character list. -/
theorem length_toList (s : String) : s.toList.length = s.length := rfl

/-- String concatenation adds lengths. -/
theorem strLength_append (s t : String) : (s ++ t).length = s.length + t.length := by
  cases s with
  | mk a =>
    cases t with
    | mk b =>
      show (a ++ b).length = a.length + b.length
      exact List.length_append a b

/-- `strTake` never yields more than `n` characters, and yields all of a
short string. -/
theorem strTake_length (s : String) (n : Nat) :
    (strTake s n).length = min n s.length := by
  rw [strTake, length_asString, List.length_take, length_toList]

/-- C10: for `maxLen ≥ 15`, `truncateToolResults` keeps the list's length and
order; messages whose role is not "tool" and tool messages within `maxLen`
pass unchanged; a tool message longer than `maxLen` is replaced by its first
`min 1000 (maxLen − 15)` characters plus the 15-character suffix
"... [truncated]"; and afterwards every tool content is within `maxLen`. -/
theorem C10_truncateToolResults (messages : List chatMessage) (maxLen : Nat)
    (h : 15 ≤ maxLen) :
    (truncateToolResults messages maxLen).length = messages.length ∧
    (∀ i m, messages.get? i = some m → m.Role ≠ "tool" →
      (truncateToolResults messages maxLen).get? i = some m) ∧
    (∀ i m, messages.get? i = some m → m.Role = "tool" →
      m.Content.length ≤ maxLen →
      (truncateToolResults messages maxLen).get? i = some m) ∧
    (∀ i m, messages.get? i = some m → m.Role = "tool" →
      maxLen < m.Content.length →
      (truncateToolResults messages maxLen).get? i =
        some { m with
                 Content := strTake m.Content (min 1000 (maxLen - 15)) ++
                   "... [truncated]" }) ∧
    (∀ m ∈ truncateToolResults messages maxLen, m.Role = "tool" →
      m.Content.length ≤ maxLen) := by
  have hne : ¬ maxLen = 0 := by omega
  have hsuf : ("... [truncated]" : String).length = 15 := rfl
  have hkeep : (if maxLen < 1000 + ("... [truncated]" : String).length then
      maxLen - ("... [truncated]" : String).length else 1000) =
      min 1000 (maxLen - 15) := by
    rw [hsuf]
    split <;> omega
  have hfun : truncateToolResults messages maxLen = messages.map fun m =>
      if m.Role = "tool" ∧ maxLen < m.Content.length then
        { m with
            Content := strTake m.Content (min 1000 (maxLen - 15)) ++
              "... [truncated]" }
      else m := by
    rw [truncateToolResults]
    simp only [hne, if_false, hkeep]
  refine ⟨?_, ?_, ?_, ?_, ?_⟩
  · rw [hfun, List.length_map]
  · intro i m hm hrole
    rw [hfun, List.get?_map, hm]
    simp only [Option.map_some']
    rw [if_neg (by intro hc; exact hrole hc.1)]
  · intro i m hm hrole hlen
    rw [hfun, List.get?_map, hm]
    simp only [Option.map_some']
    rw [if_neg (by intro hc; omega)]
  · intro i m hm hrole hlen
    rw [hfun, List.get?_map, hm]
    simp only [Option.map_some']
    rw [if_pos ⟨hrole, hlen⟩]
  · intro m hmem hrole
    rw [hfun] at hmem
    obtain ⟨m0, _, rfl⟩ := List.mem_map.mp hmem
    by_cases hc : m0.Role = "tool" ∧ maxLen < m0.Content.length
    · rw [if_pos hc]
      show ({ m0 with
                Content := strTake m0.Content (min 1000 (maxLen - 15)) ++
                  "... [truncated]" }).Content.length ≤ maxLen
      rw [strLength_append, strTake_length, hsuf]
      omega
    · rw [if_neg hc] at hrole ⊢
      by_cases hlen : maxLen < m0.Content.length
      · exact absurd ⟨hrole, hlen⟩ hc
      · omega

/-- C10 witness: at `maxLen = 20`, a 32-character tool result is cut to its
first 5 characters plus the suffix (length 20) while a user message and a
short tool result pass unchanged. -/
theorem C10_truncateToolResults_witness :
    (truncateToolResults
        [{ Role := "tool", Content := "0123456789_0123456789_0123456789",
           ToolCallID := "t1" },
         { Role := "user", Content := "hi there" },
         { Role := "tool", Content := "ok", ToolCallID := "t2" }] 20).length = 3 ∧
    (∀ i m,
      ([{ Role := "tool", Content := "0123456789_0123456789_0123456789",
           ToolCallID := "t1" },
        { Role := "user", Content := "hi there" },
        { Role := "tool", Content := "ok", ToolCallID := "t2" }] :
          List chatMessage).get? i = some m → m.Role ≠ "tool" →
      (truncateToolResults
        [{ Role := "tool", Content := "0123456789_0123456789_0123456789",
           ToolCallID := "t1" },
         { Role := "user", Content := "hi there" },
         { Role := "tool", Content := "ok", ToolCallID := "t2" }] 20).get? i =
        some m) ∧
    (∀ i m,
      ([{ Role := "tool", Content := "0123456789_0123456789_0123456789",
           ToolCallID := "t1" },
        { Role := "user", Content := "hi there" },
        { Role := "tool", Content := "ok", ToolCallID := "t2" }] :
          List chatMessage).get? i = some m → m.Role = "tool" →
      m.Content.length ≤ 20 →
      (truncateToolResults
        [{ Role := "tool", Content := "0123456789_0123456789_0123456789",
           ToolCallID := "t1" },
         { Role := "user", Content := "hi there" },
         { Role := "tool", Content := "ok", ToolCallID := "t2" }] 20).get? i =
        some m) ∧
    (∀ i m,
      ([{ Role := "tool", Content := "0123456789_0123456789_0123456789",
           ToolCallID := "t1" },
        { Role := "user", Content := "hi there" },
        { Role := "tool", Content := "ok", ToolCallID := "t2" }] :
          List chatMessage).get? i = some m → m.Role = "tool" →
      20 < m.Content.length →
      (truncateToolResults
        [{ Role := "tool", Content := "0123456789_0123456789_0123456789",
           ToolCallID := "t1" },
         { Role := "user", Content := "hi there" },
         { Role := "tool", Content := "ok", ToolCallID := "t2" }] 20).get? i =
        some { m with
                 Content := strTake m.Content (min 1000 (20 - 15)) ++
                   "... [truncated]" }) ∧
    (∀ m ∈ truncateToolResults
        [{ Role := "tool", Content := "0123456789_0123456789_0123456789",
           ToolCallID := "t1" },
         { Role := "user", Content := "hi there" },
         { Role := "tool", Content := "ok", ToolCallID := "t2" }] 20,
      m.Role = "tool" → m.Content.length ≤ 20) :=
  C10_truncateToolResults
    [{ Role := "tool", Content := "0123456789_0123456789_0123456789",
       ToolCallID := "t1" },
     { Role := "user", Content := "hi there" },
     { Role := "tool", Content := "ok", ToolCallID := "t2" }] 20 (by omega)

/-! ## C3 — context-overflow recovery -/

/-- The length of a `String.mk` is the length of its character list. -/
theorem length_mk (l : List Char) : (String.mk l).length = l.length := rfl

/-- The character list of a `String.mk`. -/
theorem toList_mk (l : List Char) : (String.mk l).toList = l := rfl

/-- The retry loop makes at most `fuel` LLM calls. -/
theorem doLLMCallAux_calls_le (oracle : Nat → Except String LLMResponse) :
    ∀ (fuel attempt : Nat) (tr : Bool) (kr : Nat) (msgs : List chatMessage),
      (doLLMCallAux oracle attempt fuel tr kr msgs).2.length ≤ fuel := by
  intro fuel
  induction fuel with
  | zero => intro attempt tr kr msgs; simp [doLLMCallAux]
  | succ n ih =>
    intro attempt tr kr msgs
    cases horacle : oracle attempt with
    | ok r => simp [doLLMCallAux, horacle]
    | error e =>
      simp only [doLLMCallAux, horacle]
      by_cases hov : ¬ isContextOverflow e = true
      · simp [hov]
      · rw [if_neg hov]
        by_cases hbr : ¬ tr = true ∧ hasOversizedToolResults msgs 4000 = true
        · rw [if_pos hbr]
          simpa using Nat.succ_le_succ (ih (attempt + 1) true kr
            (truncateToolResults msgs 4000))
        · rw [if_neg hbr]
          simpa using Nat.succ_le_succ (ih (attempt + 1) tr (nextKeepRecent kr)
            (truncateToolResults (compactMessages msgs kr) 2000))

/-- When every remaining call overflows, the loop exhausts its attempts, makes
exactly `fuel` calls, and fails with the compaction-exhausted error. -/
theorem doLLMCallAux_all_overflow (oracle : Nat → Except String LLMResponse) :
    ∀ (fuel attempt : Nat) (tr : Bool) (kr : Nat) (msgs : List chatMessage),
      (∀ i, attempt ≤ i → i < attempt + fuel →
        ∃ e, oracle i = .error e ∧ isContextOverflow e = true) →
      (doLLMCallAux oracle attempt fuel tr kr msgs).1 =
        .error ("context overflow: compacted " ++ toString (attempt + fuel) ++
          " times but still exceeded context limit") ∧
      (doLLMCallAux oracle attempt fuel tr kr msgs).2.length = fuel := by
  intro fuel
  induction fuel with
  | zero =>
    intro attempt tr kr msgs _
    rw [Nat.add_zero]
    exact ⟨rfl, rfl⟩
  | succ n ih =>
    intro attempt tr kr msgs h
    obtain ⟨e, he, hov⟩ := h attempt le_rfl (by omega)
    have h' : ∀ i, attempt + 1 ≤ i → i < attempt + 1 + n →
        ∃ e, oracle i = .error e ∧ isContextOverflow e = true := by
      intro i hi1 hi2
      exact h i (by omega) (by omega)
    have hsum : attempt + 1 + n = attempt + (n + 1) := by omega
    simp only [doLLMCallAux, he]
    rw [if_neg (by simp [hov])]
    by_cases hbr : ¬ tr = true ∧ hasOversizedToolResults msgs 4000 = true
    · rw [if_pos hbr]
      have := ih (attempt + 1) true kr (truncateToolResults msgs 4000) h'
      rw [hsum] at this
      exact ⟨this.1, by simpa using this.2⟩
    · rw [if_neg hbr]
      have := ih (attempt + 1) tr (nextKeepRecent kr)
        (truncateToolResults (compactMessages msgs kr) 2000) h'
      rw [hsum] at this
      exact ⟨this.1, by simpa using this.2⟩

/-- C3 amended: with the default 3 compaction attempts, (a) at most 3 LLM
calls happen; (b) on a first-call overflow with some tool result over 4000
characters (the code's threshold — not 4 KiB), the single retry is made with
exactly `truncateToolResults messages 4000` and a successful retry means
exactly 2 calls; (c) an overflow in a round where tool results were already
truncated, or none exceeds 4000 characters, compacts to the system message
plus the last `keepRecent` messages and truncates tool results to 2000
characters, continuing with `keepRecent` lowered by 5 down to the floor of 6
(20, 15, 10, 6, 6, …); (d) when every call overflows, the run fails with the
compaction-exhausted error. -/
theorem C3_overflow_recovery (oracle : Nat → Except String LLMResponse)
    (messages : List chatMessage) :
    ((doLLMCallWithOverflowRetry oracle 3 messages).2.length ≤ 3) ∧
    (∀ e r, oracle 0 = .error e → isContextOverflow e = true →
      hasOversizedToolResults messages 4000 = true → oracle 1 = .ok r →
      doLLMCallWithOverflowRetry oracle 3 messages =
        (.ok r, [messages, truncateToolResults messages 4000])) ∧
    (∀ (attempt fuel : Nat) (tr : Bool) (kr : Nat) (msgs : List chatMessage) e,
      oracle attempt = .error e → isContextOverflow e = true →
      (tr = true ∨ hasOversizedToolResults msgs 4000 = false) →
      doLLMCallAux oracle attempt (fuel + 1) tr kr msgs =
        ((doLLMCallAux oracle (attempt + 1) fuel tr (nextKeepRecent kr)
            (truncateToolResults (compactMessages msgs kr) 2000)).1,
          msgs :: (doLLMCallAux oracle (attempt + 1) fuel tr (nextKeepRecent kr)
            (truncateToolResults (compactMessages msgs kr) 2000)).2)) ∧
    ((∀ i, i < 3 → ∃ e, oracle i = .error e ∧ isContextOverflow e = true) →
      (doLLMCallWithOverflowRetry oracle 3 messages).1 =
        .error "context overflow: compacted 3 times but still exceeded context limit") ∧
    (nextKeepRecent 20 = 15 ∧ nextKeepRecent 15 = 10 ∧ nextKeepRecent 10 = 6 ∧
      nextKeepRecent 6 = 6) := by
  refine ⟨doLLMCallAux_calls_le oracle 3 0 false 20 messages, ?_, ?_, ?_, by decide⟩
  · intro e r h0 hov hover h1
    rw [doLLMCallWithOverflowRetry, show (3 : Nat) = 2 + 1 from rfl]
    simp only [doLLMCallAux, h0]
    rw [if_neg (by simp [hov]), if_pos ⟨by simp, hover⟩]
    have h1' : oracle (0 + 1) = Except.ok r := h1
    simp only [h1']
  · intro attempt fuel tr kr msgs e he hov hbr
    simp only [doLLMCallAux, he]
    rw [if_neg (by simp [hov])]
    rw [if_neg ?hcond]
    case hcond =>
      rintro ⟨hh1, hh2⟩
      rcases hbr with h | h
      · exact hh1 h
      · rw [h] at hh2
        exact absurd hh2 (by decide)
  · intro h
    have := (doLLMCallAux_all_overflow oracle 3 0 false 20 messages
      (fun i _ hi => h i (by omega))).1
    rw [doLLMCallWithOverflowRetry, this]
    rfl

/-- C3 counterexample: first call overflows; the 4001-character tool result
does not exceed 4 KiB (4096), yet the retry — which succeeds, for 2 calls
total — is made with both tool results cut to 1015 characters, not "exactly
those exceeding 4 KiB, otherwise unchanged". -/
theorem C3_overflow_4KiB_counterexample :
    ((overflowMessages.get? 1).map (fun m => m.Content.length) = some 4001) ∧
    (4001 ≤ 4096) ∧
    (doLLMCallWithOverflowRetry overflowOnceOracle 3 overflowMessages).2.length = 2 ∧
    (doLLMCallWithOverflowRetry overflowOnceOracle 3 overflowMessages).1 =
      .ok { Content := "done" } ∧
    ((doLLMCallWithOverflowRetry overflowOnceOracle 3 overflowMessages).2.get? 1).map
      (fun l => l.map fun m => m.Content.length) = some [1015, 1015] := by
  have h0 : overflowOnceOracle 0 = .error "context_length_exceeded" := rfl
  have h1 : overflowOnceOracle 1 = .ok { Content := "done" } := rfl
  have hov : isContextOverflow "context_length_exceeded" = true := by decide
  have hlen1 : (String.mk (List.replicate 4097 'a')).length = 4097 := by
    rw [length_mk, List.length_replicate]
  have hlen2 : (String.mk (List.replicate 4001 'b')).length = 4001 := by
    rw [length_mk, List.length_replicate]
  have hover : hasOversizedToolResults overflowMessages 4000 = true := by
    simp only [hasOversizedToolResults, overflowMessages, List.any_cons,
      List.any_nil, hlen1, hlen2]
    rfl
  have hrun : doLLMCallWithOverflowRetry overflowOnceOracle 3 overflowMessages =
      (.ok { Content := "done" },
        [overflowMessages, truncateToolResults overflowMessages 4000]) := by
    rw [doLLMCallWithOverflowRetry, show (3 : Nat) = 2 + 1 from rfl]
    simp only [doLLMCallAux, h0]
    rw [if_neg (by simp [hov]), if_pos ⟨by simp, hover⟩]
    have h1' : overflowOnceOracle (0 + 1) = Except.ok { Content := "done" } := h1
    simp only [h1']
  have hsuf : ("... [truncated]" : String).length = 15 := rfl
  have htr : (truncateToolResults overflowMessages 4000).map
      (fun m => m.Content.length) = [1015, 1015] := by
    simp only [truncateToolResults, overflowMessages, hsuf, List.map_cons,
      List.map_nil]
    rw [if_neg (by norm_num : ¬ (4000 : Nat) = 0)]
    rw [if_neg (by norm_num : ¬ (4000 : Nat) < 1000 + 15)]
    rw [if_pos ⟨trivial, by rw [hlen1]; norm_num⟩,
      if_pos ⟨trivial, by rw [hlen2]; norm_num⟩]
    simp only [strLength_append, strTake_length, hlen1, hlen2, hsuf]
    norm_num
  refine ⟨?_, by omega, ?_, ?_, ?_⟩
  case' refine_2 => rw [hrun]; rfl
  case' refine_3 => rw [hrun]
  · have hget : overflowMessages.get? 1 =
        some { Role := "tool", Content := String.mk (List.replicate 4001 'b'),
               ToolCallID := "id2" } := rfl
    rw [hget, Option.map_some']
    show some ((String.mk (List.replicate 4001 'b')).length) = some 4001
    rw [hlen2]
  · rw [hrun]
    show some ((truncateToolResults overflowMessages 4000).map
      (fun m => m.Content.length)) = some [1015, 1015]
    rw [htr]

/-! ## C8 — compaction strategies -/

/-- C8 amended: with a history longer than the retention counts, the
summarize strategy makes the optional memory-flush call (when a memory store
is configured) plus the one summary call, retains exactly
`max (MaxMessages/4) 5` most recent entries behind a synthetic summary entry,
and writes a daily-log record holding the session id, the summary and the
COUNT of removed entries (not the entries themselves); truncate and sliding
retain exactly `max (MaxMessages/2) 10` most recent entries with no LLM call
and no daily log. -/
theorem C8_compaction_strategies (hasMem : Bool) (sessionID : String)
    (outcome : Except String String) (threshold : Nat)
    (history : List ConversationEntry)
    (hS : max (threshold / 4) 5 < history.length)
    (hT : max (threshold / 2) 10 < history.length) :
    (compactSummarize hasMem sessionID outcome threshold history).history =
      compactionSummaryEntry (match outcome with
        | .ok s => s
        | .error _ => "Previous conversation context was compacted.") ::
        history.drop (history.length - max (threshold / 4) 5) ∧
    (compactSummarize hasMem sessionID outcome threshold history).removed =
      history.take (history.length - max (threshold / 4) 5) ∧
    (compactSummarize hasMem sessionID outcome threshold history).llmCalls =
      (if hasMem then 2 else 1) ∧
    (compactSummarize hasMem sessionID outcome threshold history).dailyLog =
      (if hasMem then
        some ("### Compacted session: " ++ sessionID ++ "\n\n" ++
          "Summary: " ++ (match outcome with
            | .ok s => s
            | .error _ => "Previous conversation context was compacted.") ++
          "\n\n" ++ "Entries compacted: " ++
          toString (history.length - max (threshold / 4) 5) ++ "\n")
       else none) ∧
    (compactTruncate threshold history).history =
      compactionSummaryEntry "" ::
        history.drop (history.length - max (threshold / 2) 10) ∧
    (compactTruncate threshold history).removed =
      history.take (history.length - max (threshold / 2) 10) ∧
    (compactTruncate threshold history).llmCalls = 0 ∧
    (compactTruncate threshold history).dailyLog = none ∧
    (compactSliding threshold history).history =
      compactionSummaryEntry "" ::
        history.drop (history.length - max (threshold / 2) 10) ∧
    (compactSliding threshold history).llmCalls = 0 := by
  have hk1 : (if threshold / 4 < 5 then 5 else threshold / 4) =
      max (threshold / 4) 5 := by
    split <;> omega
  have hk2 : (if threshold / 2 < 10 then 10 else threshold / 2) =
      max (threshold / 2) 10 := by
    split <;> omega
  have hnot1 : ¬ history.length ≤ max (threshold / 4) 5 := by omega
  have hnot2 : ¬ history.length ≤ max (threshold / 2) 10 := by omega
  have hlen : (history.take (history.length - max (threshold / 4) 5)).length =
      history.length - max (threshold / 4) 5 := by
    rw [List.length_take]
    omega
  refine ⟨?_, ?_, ?_, ?_, ?_, ?_, ?_, ?_, ?_, ?_⟩
  · simp only [compactSummarize, CompactHistory, hk1]
    rw [if_neg hnot1]
  · simp only [compactSummarize, CompactHistory, hk1]
    rw [if_neg hnot1]
  · cases hasMem <;> rfl
  · cases hasMem
    · simp only [compactSummarize, CompactHistory, hk1]
      rw [if_neg hnot1]
      rfl
    · simp only [compactSummarize, CompactHistory, hk1]
      rw [if_neg hnot1]
      show (if True ∧ 0 < (history.take
          (history.length - max (threshold / 4) 5)).length then _ else none) = _
      rw [if_pos ⟨trivial, by rw [hlen]; omega⟩, hlen]
      rfl
  · simp only [compactTruncate, CompactHistory, hk2]
    rw [if_neg hnot2]
  · simp only [compactTruncate, CompactHistory, hk2]
    rw [if_neg hnot2]
  · rfl
  · rfl
  · simp only [compactSliding, CompactHistory, hk2]
    rw [if_neg hnot2]
  · rfl

/-- C8 counterexample: compacting a 12-entry history (threshold 20, memory
store configured) removes the 7 oldest entries, among them the one holding
"SECRET42" — but the daily-log record written does not contain the removed
entries: the secret is absent from it (only the count appears). -/
theorem C8_daily_log_omits_removed_entries :
    (compactSummarize true "sess1" (.ok "Talked about the plan.") 20
      historySample).removed.length = 7 ∧
    ((compactSummarize true "sess1" (.ok "Talked about the plan.") 20
      historySample).removed.get? 0).map (fun e => e.UserMessage) =
      some "SECRET42" ∧
    ((compactSummarize true "sess1" (.ok "Talked about the plan.") 20
      historySample).dailyLog).map (fun s => strContains s "SECRET42") =
      some false := by
  refine ⟨rfl, rfl, ?_⟩
  rfl

/-- C8 witness: threshold 20 over the 12-entry sample history with a memory
store: summarize keeps the 5 most recent entries behind the summary entry
after 2 LLM calls and logs the count 7; truncate and sliding keep the 10 most
recent with no LLM call. -/
theorem C8_compaction_strategies_witness :
    (compactSummarize true "sess1" (.ok "Sum.") 20 historySample).history =
      compactionSummaryEntry "Sum." :: historySample.drop 7 ∧
    (compactSummarize true "sess1" (.ok "Sum.") 20 historySample).removed =
      historySample.take 7 ∧
    (compactSummarize true "sess1" (.ok "Sum.") 20 historySample).llmCalls = 2 ∧
    (compactSummarize true "sess1" (.ok "Sum.") 20 historySample).dailyLog =
      some ("### Compacted session: sess1\n\nSummary: Sum.\n\n" ++
        "Entries compacted: 7\n") ∧
    (compactTruncate 20 historySample).history =
      compactionSummaryEntry "" :: historySample.drop 2 ∧
    (compactTruncate 20 historySample).removed = historySample.take 2 ∧
    (compactTruncate 20 historySample).llmCalls = 0 ∧
    (compactTruncate 20 historySample).dailyLog = none ∧
    (compactSliding 20 historySample).history =
      compactionSummaryEntry "" :: historySample.drop 2 ∧
    (compactSliding 20 historySample).llmCalls = 0 :=
  C8_compaction_strategies true "sess1" (.ok "Sum.") 20 historySample
    (by decide) (by decide)

end DevClaw
